import Mathlib

/-!
# Verification of the nextjs-cache-handler test app

Shallow embedding of the pure logic of the repository and handler control flow.
JavaScript strings are modelled as lists of UTF-16 code units (`List Nat`);
the JS regex classes `\w` and `\s` are modelled by their ASCII members, and
`String.prototype.toLowerCase` by the ASCII case mapping (all characters the
claims are about are ASCII).
-/

namespace CacheApp

/-- Code units of a Lean string, used to write concrete JS-string inputs. -/
def codes (s : String) : List Nat :=
  s.data.map Char.toNat

/-- Membership in the JS regex class `\s` (ASCII members). -/
def isSpaceCode (c : Nat) : Bool :=
  c = 32 || c = 9 || c = 10 || c = 11 || c = 12 || c = 13

/-- Membership in the JS regex class `\w`, i.e. `[A-Za-z0-9_]`. -/
def isWordCode (c : Nat) : Bool :=
  (97 ≤ c && c ≤ 122) || (65 ≤ c && c ≤ 90) || (48 ≤ c && c ≤ 57) || c = 95

/-- A lowercase word character: a `\w` character that is not an uppercase letter. -/
def isLowerWordCode (c : Nat) : Bool :=
  (97 ≤ c && c ≤ 122) || (48 ≤ c && c ≤ 57) || c = 95

/-- `String.prototype.toLowerCase`, per code unit (ASCII mapping). -/
def jsToLower (c : Nat) : Nat :=
  if 65 ≤ c ∧ c ≤ 90 then c + 32 else c

/-- The characters kept by the first replacement of `createSlug`, which deletes
every character outside `\w`, `\s` and the hyphen. -/
def keepSlugCode (c : Nat) : Bool :=
  isWordCode c || isSpaceCode c || c = 45

/-- The second replacement of `createSlug`: each maximal run of whitespace
(regex `\s+`) becomes one hyphen.  The hyphen is emitted at the last character
of the run, which produces the same output string as the JS replacement. -/
def collapseSpaces : List Nat → List Nat
  | [] => []
  | c :: rest =>
    if isSpaceCode c then
      match rest with
      | [] => [45]
      | d :: _ => if isSpaceCode d then collapseSpaces rest else 45 :: collapseSpaces rest
    else c :: collapseSpaces rest

/-- The third replacement of `createSlug`: each maximal run of two or more
hyphens (regex `--+`) becomes a single hyphen.  Runs of length one are
untouched by the JS replacement, which gives the same output string. -/
def collapseHyphens : List Nat → List Nat
  | [] => []
  | c :: rest =>
    if c = 45 then
      match rest with
      | [] => [45]
      | d :: _ => if d = 45 then collapseHyphens rest else 45 :: collapseHyphens rest
    else c :: collapseHyphens rest

/-- `String.prototype.trim()`: strip leading and trailing whitespace. -/
def jsTrim (l : List Nat) : List Nat :=
  ((l.dropWhile isSpaceCode).reverse.dropWhile isSpaceCode).reverse

/-- `createSlug` from the blog-service utilities: lowercase the title, delete
characters outside `\w`, `\s` and hyphen, replace whitespace runs by a hyphen,
collapse hyphen runs, then `trim()`.  Note the source applies `trim()` last,
after all whitespace has already been replaced by hyphens. -/
def createSlug (title : List Nat) : List Nat :=
  jsTrim (collapseHyphens (collapseSpaces ((title.map jsToLower).filter keepSlugCode)))

/-- No two consecutive hyphens anywhere in the list (decidable). -/
def noConsecHyphens (l : List Nat) : Prop :=
  List.Chain' (fun a b => ¬(a = 45 ∧ b = 45)) l

instance (l : List Nat) : Decidable (noConsecHyphens l) := by
  unfold noConsecHyphens; infer_instance

theorem jsToLower_not_upper (c : Nat) : ¬(65 ≤ jsToLower c ∧ jsToLower c ≤ 90) := by
  unfold jsToLower
  split <;> omega

theorem isSpaceCode_iff (c : Nat) :
    isSpaceCode c = true ↔ (c = 32 ∨ c = 9 ∨ c = 10 ∨ c = 11 ∨ c = 12 ∨ c = 13) := by
  unfold isSpaceCode
  simp [or_assoc]

theorem isSpaceCode_eq_false_iff (c : Nat) :
    isSpaceCode c = false ↔ ¬(c = 32 ∨ c = 9 ∨ c = 10 ∨ c = 11 ∨ c = 12 ∨ c = 13) := by
  rw [← isSpaceCode_iff]
  exact Bool.eq_false_iff.trans (by simp)

theorem isWordCode_iff (c : Nat) :
    isWordCode c = true ↔
      ((97 ≤ c ∧ c ≤ 122) ∨ (65 ≤ c ∧ c ≤ 90) ∨ (48 ≤ c ∧ c ≤ 57) ∨ c = 95) := by
  unfold isWordCode
  simp [or_assoc, and_assoc]

theorem isLowerWordCode_iff (c : Nat) :
    isLowerWordCode c = true ↔
      ((97 ≤ c ∧ c ≤ 122) ∨ (48 ≤ c ∧ c ≤ 57) ∨ c = 95) := by
  unfold isLowerWordCode
  simp [or_assoc, and_assoc]

theorem keepSlugCode_iff (c : Nat) :
    keepSlugCode c = true ↔ (isWordCode c = true ∨ isSpaceCode c = true ∨ c = 45) := by
  unfold keepSlugCode
  simp [or_assoc]

theorem collapseSpaces_single (a : Nat) :
    collapseSpaces [a] = if isSpaceCode a then [45] else [a] := by
  simp only [collapseSpaces]

theorem collapseSpaces_cons_cons (a d : Nat) (t : List Nat) :
    collapseSpaces (a :: d :: t) =
      if isSpaceCode a then
        (if isSpaceCode d then collapseSpaces (d :: t) else 45 :: collapseSpaces (d :: t))
      else a :: collapseSpaces (d :: t) := by
  conv_lhs => rw [collapseSpaces]

theorem collapseHyphens_single (a : Nat) :
    collapseHyphens [a] = if a = 45 then [45] else [a] := by
  simp only [collapseHyphens]

theorem collapseHyphens_cons_cons (a d : Nat) (t : List Nat) :
    collapseHyphens (a :: d :: t) =
      if a = 45 then
        (if d = 45 then collapseHyphens (d :: t) else 45 :: collapseHyphens (d :: t))
      else a :: collapseHyphens (d :: t) := by
  conv_lhs => rw [collapseHyphens]

theorem mem_collapseSpaces {c : Nat} :
    ∀ {l : List Nat}, c ∈ collapseSpaces l → c = 45 ∨ (c ∈ l ∧ isSpaceCode c = false) := by
  intro l
  induction l with
  | nil => simp [collapseSpaces]
  | cons a rest ih =>
    cases rest with
    | nil =>
      rw [collapseSpaces_single]
      by_cases ha : isSpaceCode a = true
      · rw [if_pos ha]
        intro h
        rcases List.mem_singleton.mp h with rfl
        exact Or.inl rfl
      · rw [if_neg ha]
        intro h
        rcases List.mem_singleton.mp h with rfl
        exact Or.inr ⟨List.mem_cons_self _ _, Bool.eq_false_iff.mpr ha⟩
    | cons d t =>
      rw [collapseSpaces_cons_cons]
      by_cases ha : isSpaceCode a = true
      · rw [if_pos ha]
        by_cases hd : isSpaceCode d = true
        · rw [if_pos hd]
          intro h
          rcases ih h with h45 | ⟨hmem, hns⟩
          · exact Or.inl h45
          · exact Or.inr ⟨List.mem_cons_of_mem _ hmem, hns⟩
        · rw [if_neg hd]
          intro h
          rcases List.mem_cons.mp h with rfl | h
          · exact Or.inl rfl
          · rcases ih h with h45 | ⟨hmem, hns⟩
            · exact Or.inl h45
            · exact Or.inr ⟨List.mem_cons_of_mem _ hmem, hns⟩
      · rw [if_neg ha]
        intro h
        rcases List.mem_cons.mp h with rfl | h
        · exact Or.inr ⟨List.mem_cons_self _ _, Bool.eq_false_iff.mpr ha⟩
        · rcases ih h with h45 | ⟨hmem, hns⟩
          · exact Or.inl h45
          · exact Or.inr ⟨List.mem_cons_of_mem _ hmem, hns⟩

theorem mem_collapseHyphens {c : Nat} :
    ∀ {l : List Nat}, c ∈ collapseHyphens l → c = 45 ∨ c ∈ l := by
  intro l
  induction l with
  | nil => simp [collapseHyphens]
  | cons a rest ih =>
    cases rest with
    | nil =>
      rw [collapseHyphens_single]
      by_cases ha : a = 45
      · rw [if_pos ha]
        intro h
        exact Or.inl (List.mem_singleton.mp h)
      · rw [if_neg ha]
        intro h
        rcases List.mem_singleton.mp h with rfl
        exact Or.inr (List.mem_cons_self _ _)
    | cons d t =>
      rw [collapseHyphens_cons_cons]
      by_cases ha : a = 45
      · rw [if_pos ha]
        by_cases hd : d = 45
        · rw [if_pos hd]
          intro h
          rcases ih h with h45 | hmem
          · exact Or.inl h45
          · exact Or.inr (List.mem_cons_of_mem _ hmem)
        · rw [if_neg hd]
          intro h
          rcases List.mem_cons.mp h with rfl | h
          · exact Or.inl rfl
          · rcases ih h with h45 | hmem
            · exact Or.inl h45
            · exact Or.inr (List.mem_cons_of_mem _ hmem)
      · rw [if_neg ha]
        intro h
        rcases List.mem_cons.mp h with rfl | h
        · exact Or.inr (List.mem_cons_self _ _)
        · rcases ih h with h45 | hmem
          · exact Or.inl h45
          · exact Or.inr (List.mem_cons_of_mem _ hmem)

theorem collapseHyphens_head :
    ∀ (t : List Nat) (c : Nat),
      (collapseHyphens (c :: t)).head? = some (if c = 45 then 45 else c) := by
  intro t
  induction t with
  | nil =>
    intro c
    rw [collapseHyphens_single]
    by_cases hc : c = 45 <;> simp [hc]
  | cons d t' ih =>
    intro c
    rw [collapseHyphens_cons_cons]
    by_cases hc : c = 45
    · rw [if_pos hc]
      by_cases hd : d = 45
      · rw [if_pos hd]
        rw [ih d, if_pos hd, hc]
        simp
      · rw [if_neg hd]
        simp [hc]
    · rw [if_neg hc]
      simp [hc]

theorem noConsecHyphens_collapseHyphens :
    ∀ (l : List Nat), noConsecHyphens (collapseHyphens l) := by
  intro l
  unfold noConsecHyphens
  induction l with
  | nil => simp [collapseHyphens]
  | cons a rest ih =>
    cases rest with
    | nil =>
      rw [collapseHyphens_single]
      by_cases ha : a = 45 <;> simp [ha]
    | cons d t =>
      rw [collapseHyphens_cons_cons]
      by_cases ha : a = 45
      · rw [if_pos ha]
        by_cases hd : d = 45
        · rw [if_pos hd]
          exact ih
        · rw [if_neg hd]
          rw [List.chain'_cons']
          constructor
          · intro b hb
            rw [collapseHyphens_head t d, if_neg hd] at hb
            simp only [Option.mem_def, Option.some.injEq] at hb
            subst hb
            exact fun hcon => hd hcon.2
          · exact ih
      · rw [if_neg ha]
        rw [List.chain'_cons']
        exact ⟨fun b _ hcon => ha hcon.1, ih⟩

theorem dropWhile_no_space {l : List Nat}
    (h : ∀ c ∈ l, isSpaceCode c = false) : l.dropWhile isSpaceCode = l := by
  cases l with
  | nil => rfl
  | cons a t =>
    have ha := h a (List.mem_cons_self _ _)
    simp [List.dropWhile_cons, ha]

theorem jsTrim_of_no_space {l : List Nat}
    (h : ∀ c ∈ l, isSpaceCode c = false) : jsTrim l = l := by
  unfold jsTrim
  rw [dropWhile_no_space h]
  rw [dropWhile_no_space (fun c hc => h c (List.mem_reverse.mp hc))]
  exact List.reverse_reverse l

/-- Characters of the slug pipeline before `trim()`: every character is a
lowercase word character or a hyphen. -/
theorem slugCore_chars (title : List Nat) :
    ∀ c ∈ collapseHyphens (collapseSpaces ((title.map jsToLower).filter keepSlugCode)),
      isLowerWordCode c = true ∨ c = 45 := by
  intro c hc
  rcases mem_collapseHyphens hc with rfl | hc2
  · exact Or.inr rfl
  rcases mem_collapseSpaces hc2 with rfl | ⟨hmem, hns⟩
  · exact Or.inr rfl
  rcases List.mem_filter.mp hmem with ⟨hmap, hkeep⟩
  rcases List.mem_map.mp hmap with ⟨c0, _, rfl⟩
  have hnu := jsToLower_not_upper c0
  rw [keepSlugCode_iff] at hkeep
  rw [isSpaceCode_eq_false_iff] at hns
  rcases hkeep with hw | hs | h45
  · rw [isWordCode_iff] at hw
    rw [isLowerWordCode_iff]
    left
    omega
  · rw [isSpaceCode_iff] at hs
    exact absurd hs hns
  · exact Or.inr h45

/-- Characters of the slug pipeline before `trim()` are never whitespace. -/
theorem slugCore_no_space (title : List Nat) :
    ∀ c ∈ collapseHyphens (collapseSpaces ((title.map jsToLower).filter keepSlugCode)),
      isSpaceCode c = false := by
  intro c hc
  rw [isSpaceCode_eq_false_iff]
  rcases slugCore_chars title c hc with hl | rfl
  · rw [isLowerWordCode_iff] at hl
    omega
  · omega

/-- The final `trim()` in `createSlug` is a no-op: at that point the string
contains no whitespace at all. -/
theorem createSlug_eq_core (title : List Nat) :
    createSlug title
      = collapseHyphens (collapseSpaces ((title.map jsToLower).filter keepSlugCode)) := by
  unfold createSlug
  exact jsTrim_of_no_space (slugCore_no_space title)

/-- C1, counterexample: on the title `" hello"` the slug is `"-hello"`, which
begins with a hyphen, because `trim()` runs only after all whitespace has been
turned into hyphens.  This refutes the claim that the slug never has a leading
or trailing hyphen. -/
theorem createSlug_leading_hyphen_cex :
    createSlug (codes " hello") = codes "-hello" ∧
      (createSlug (codes " hello")).head? = some 45 := by
  constructor <;> rfl

/-- C1 (amended): for every title, the slug contains only lowercase word
characters and hyphens, has no two consecutive hyphens, and contains no
whitespace at all (hence no leading or trailing whitespace); it may however
begin or end with a hyphen. -/
theorem createSlug_amended (title : List Nat) :
    (∀ c ∈ createSlug title, isLowerWordCode c = true ∨ c = 45) ∧
      noConsecHyphens (createSlug title) ∧
      (∀ c ∈ createSlug title, isSpaceCode c = false) := by
  rw [createSlug_eq_core]
  exact ⟨slugCore_chars title, noConsecHyphens_collapseHyphens _, slugCore_no_space title⟩

/-- C1, witness: the amended theorem evaluated on the concrete title
`"Hello World!"`, whose slug is `"hello-world"`. -/
theorem createSlug_amended_witness :
    (isLowerWordCode 104 = true ∨ (104 : Nat) = 45) ∧
      noConsecHyphens (createSlug (codes "Hello World!")) ∧
      isSpaceCode 45 = false := by
  refine ⟨(createSlug_amended (codes "Hello World!")).1 104 (by decide),
    (createSlug_amended (codes "Hello World!")).2.1,
    (createSlug_amended (codes "Hello World!")).2.2 45 (by decide)⟩

/-! ## `createExcerpt` (blog-service utilities) -/

/-- The code units of the JS string `"..."` appended by `createExcerpt`. -/
def ellipsisCodes : List Nat := [46, 46, 46]

/-- `createExcerpt(body, maxLength = 150)`: returns
`body.length > maxLength ? body.substring(0, maxLength) + "..." : body`. -/
def createExcerpt (body : List Nat) (maxLength : Nat := 150) : List Nat :=
  if body.length > maxLength then body.take maxLength ++ ellipsisCodes else body

/-- C5: the excerpt never exceeds the configured maximum plus the length of
the ellipsis marker, and a body whose length does not exceed the maximum is
returned unchanged. -/
theorem createExcerpt_bounds (body : List Nat) (maxLength : Nat) :
    (createExcerpt body maxLength).length ≤ maxLength + ellipsisCodes.length ∧
      (body.length ≤ maxLength → createExcerpt body maxLength = body) := by
  unfold createExcerpt
  by_cases h : body.length > maxLength
  · rw [if_pos h]
    refine ⟨?_, fun hle => absurd h (by omega)⟩
    rw [List.length_append, List.length_take]
    omega
  · rw [if_neg h]
    exact ⟨by omega, fun _ => rfl⟩

/-- C5, witness: the bound and the identity case evaluated at the default
maximum 150 on a concrete short body. -/
theorem createExcerpt_bounds_witness :
    (createExcerpt (codes "short body") 150).length ≤ 150 + ellipsisCodes.length ∧
      createExcerpt (codes "short body") 150 = codes "short body" := by
  exact ⟨(createExcerpt_bounds (codes "short body") 150).1,
    (createExcerpt_bounds (codes "short body") 150).2 (by decide)⟩

/-! ## `calculateReadingTime` (blog-service utilities) -/

/-- `text.split` on the regex `\s+`: the pieces between maximal whitespace
runs, including the empty pieces JS produces for leading and trailing
whitespace, and the single empty piece produced for the empty string. -/
def splitWs : List Nat → List (List Nat)
  | [] => [[]]
  | c :: rest =>
    if isSpaceCode c then
      match rest with
      | [] => [[], []]
      | d :: _ => if isSpaceCode d then splitWs rest else [] :: splitWs rest
    else
      match splitWs rest with
      | p :: ps => (c :: p) :: ps
      | [] => [[c]]

/-- The constant `wordsPerMinute` in `calculateReadingTime`. -/
def wordsPerMinute : Nat := 200

/-- `calculateReadingTime(text)`: the length of the regex split, divided by
the reading rate and rounded up. -/
def calculateReadingTime (text : List Nat) : Nat :=
  ((splitWs text).length + (wordsPerMinute - 1)) / wordsPerMinute

theorem splitWs_ne_nil : ∀ (l : List Nat), splitWs l ≠ [] := by
  intro l
  induction l with
  | nil => simp [splitWs]
  | cons c rest ih =>
    by_cases hc : isSpaceCode c = true
    · cases rest with
      | nil => simp [splitWs, hc]
      | cons d t =>
        by_cases hd : isSpaceCode d = true
        · simpa only [splitWs, hc, hd, if_true] using ih
        · simp only [splitWs, hc, hd, if_true, if_false]
          exact List.cons_ne_nil _ _
    · simp only [splitWs, hc, if_false]
      cases h : splitWs rest with
      | nil => exact List.cons_ne_nil _ _
      | cons p ps => exact List.cons_ne_nil _ _

theorem one_le_splitWs_length (l : List Nat) : 1 ≤ (splitWs l).length :=
  List.length_pos.mpr (splitWs_ne_nil l)

/-- C6: the reading-time estimate is a positive integer, and it is
monotonically non-decreasing in the number of pieces the text splits into
(the `words` count computed by the source). -/
theorem calculateReadingTime_pos_mono (a b : List Nat) :
    1 ≤ calculateReadingTime a ∧
      ((splitWs a).length ≤ (splitWs b).length →
        calculateReadingTime a ≤ calculateReadingTime b) := by
  constructor
  · unfold calculateReadingTime wordsPerMinute
    have h := one_le_splitWs_length a
    omega
  · intro h
    unfold calculateReadingTime
    exact Nat.div_le_div_right (by omega)

/-- C6, witness: positivity and monotonicity evaluated on the concrete texts
`"one two"` (2 pieces) and `"one two three"` (3 pieces). -/
theorem calculateReadingTime_pos_mono_witness :
    1 ≤ calculateReadingTime (codes "one two") ∧
      calculateReadingTime (codes "one two") ≤ calculateReadingTime (codes "one two three") := by
  exact ⟨(calculateReadingTime_pos_mono (codes "one two") (codes "one two three")).1,
    (calculateReadingTime_pos_mono (codes "one two") (codes "one two three")).2 (by decide)⟩

/-! ## Data-source helper (mock vs JSONPlaceholder)

`getPosts`, `getPost`, `getUsers` and `getUser` first consult the
`E2E_MOCK_DATA` flag (`useMock`); otherwise they perform a remote `fetch`.
The outcome of the remote fetch is passed in explicitly: `FetchResult.ok`
models a 2xx response whose JSON body parsed to a value, and
`FetchResult.notOk` models a non-2xx response (`response.ok` false) with its
`statusText`.  A raised JS error is modelled as `Except.error`.  The contents
of the `mock-data` module are irrelevant to the claims and are passed in as
parameters. -/

/-- Shape of a JSONPlaceholder post (also the shape of a mock post). -/
structure Post where
  userId : Nat
  id : Nat
  title : List Nat
  body : List Nat
deriving DecidableEq, Repr

/-- Shape of a JSONPlaceholder user (also the shape of a mock user). -/
structure User where
  id : Nat
  name : String
  username : String
  email : String
  website : String
  phone : String
deriving DecidableEq, Repr

/-- Outcome of an outbound `fetch`: a 2xx response with a parsed body, or a
non-2xx response with a status text. -/
inductive FetchResult (α : Type) where
  | ok (value : α)
  | notOk (statusText : String)
deriving DecidableEq, Repr

/-- `getPosts` from the data-source helper: mock mode returns `MOCK_POSTS`;
remote mode throws `Failed to fetch posts: ...` on a non-2xx response. -/
def getPosts (useMock : Bool) (mockPosts : List Post)
    (remote : FetchResult (List Post)) : Except String (List Post) :=
  if useMock then .ok mockPosts
  else
    match remote with
    | .ok v => .ok v
    | .notOk st => .error ("Failed to fetch posts: " ++ st)

/-- `getPost(id)` from the data-source helper: mock mode finds the post by id
(or null); remote mode returns null — it does not throw — on a non-2xx
response. -/
def getPost (useMock : Bool) (mockPosts : List Post) (id : Nat)
    (remote : FetchResult Post) : Except String (Option Post) :=
  if useMock then .ok (mockPosts.find? (fun p => p.id == id))
  else
    match remote with
    | .ok v => .ok (some v)
    | .notOk _ => .ok none

/-- `getUsers` from the data-source helper: mock mode returns `MOCK_USERS`;
remote mode throws `Failed to fetch users: ...` on a non-2xx response. -/
def getUsers (useMock : Bool) (mockUsers : List User)
    (remote : FetchResult (List User)) : Except String (List User) :=
  if useMock then .ok mockUsers
  else
    match remote with
    | .ok v => .ok v
    | .notOk st => .error ("Failed to fetch users: " ++ st)

/-- `getUser(id)` from the data-source helper: mock mode finds the user by id
(or null); remote mode returns null — it does not throw — on a non-2xx
response. -/
def getUser (useMock : Bool) (mockUsers : List User) (id : Nat)
    (remote : FetchResult User) : Except String (Option User) :=
  if useMock then .ok (mockUsers.find? (fun u => u.id == id))
  else
    match remote with
    | .ok v => .ok (some v)
    | .notOk _ => .ok none

/-- C8, counterexample: in remote mode, a non-2xx response to `getPost` does
NOT propagate as a raised error — the operation returns null (`.ok none`).
The same holds for `getUser`.  This refutes the claim that a failed remote
fetch raises from every data-source operation. -/
theorem getPost_notOk_returns_null_cex :
    getPost false [] 1 (.notOk "Not Found") = .ok none ∧
      getUser false [] 1 (.notOk "Not Found") = .ok none := by
  constructor <;> rfl

/-- C8 (amended): in mock mode every data-source operation returns its mock
result and never fails; in remote mode a non-2xx response propagates as a
raised error from the collection operations `getPosts` and `getUsers`, while
the single-item operations `getPost` and `getUser` return null instead. -/
theorem dataSource_failure_modes (mockPosts : List Post) (mockUsers : List User)
    (id : Nat) (rps : FetchResult (List Post)) (rp : FetchResult Post)
    (rus : FetchResult (List User)) (ru : FetchResult User) (st : String) :
    getPosts true mockPosts rps = .ok mockPosts ∧
      getPost true mockPosts id rp = .ok (mockPosts.find? (fun p => p.id == id)) ∧
      getUsers true mockUsers rus = .ok mockUsers ∧
      getUser true mockUsers id ru = .ok (mockUsers.find? (fun u => u.id == id)) ∧
      getPosts false mockPosts (.notOk st) = .error ("Failed to fetch posts: " ++ st) ∧
      getUsers false mockUsers (.notOk st) = .error ("Failed to fetch users: " ++ st) ∧
      getPost false mockPosts id (.notOk st) = .ok none ∧
      getUser false mockUsers id (.notOk st) = .ok none := by
  exact ⟨rfl, rfl, rfl, rfl, rfl, rfl, rfl, rfl⟩

/-! ## Cache-strategy posts endpoints (C7)

Each handler runs the blog-service fetch inside `try`/`catch`; the outcome of
that call is passed in as an `Except`.  `duration_ms` is `Date.now()` deltas
and `fetched_at` is `new Date().toISOString()`; both are passed in as
parameters.  The handlers are total functions into `PostsPayload`: every
outcome, including a raised error, produces a response — no exception escapes
the handler boundary. -/

/-- The JSON payload (plus HTTP status) produced by the posts endpoints. -/
structure PostsPayload where
  status : Nat
  data : Option (List Post)
  error : Option String
  cache_strategy : String
  duration_ms : Nat
  fetched_at : String
deriving DecidableEq, Repr

namespace ForceCacheRoute

/-- `GET` of the force-cache posts route. -/
def GET (outcome : Except String (List Post)) (duration : Nat) (now : String) :
    PostsPayload :=
  match outcome with
  | .ok posts =>
    { status := 200, data := some posts, error := none,
      cache_strategy := "force-cache", duration_ms := duration, fetched_at := now }
  | .error _ =>
    { status := 500, data := none, error := some "Failed to fetch posts",
      cache_strategy := "force-cache", duration_ms := duration, fetched_at := now }

end ForceCacheRoute

namespace NoCacheRoute

/-- `GET` of the no-cache posts route. -/
def GET (outcome : Except String (List Post)) (duration : Nat) (now : String) :
    PostsPayload :=
  match outcome with
  | .ok posts =>
    { status := 200, data := some posts, error := none,
      cache_strategy := "no-store", duration_ms := duration, fetched_at := now }
  | .error _ =>
    { status := 500, data := none, error := some "Failed to fetch posts",
      cache_strategy := "no-store", duration_ms := duration, fetched_at := now }

end NoCacheRoute

namespace WithTagsRoute

/-- `GET` of the with-tags posts route. -/
def GET (outcome : Except String (List Post)) (duration : Nat) (now : String) :
    PostsPayload :=
  match outcome with
  | .ok posts =>
    { status := 200, data := some posts, error := none,
      cache_strategy := "tags-revalidate-5m", duration_ms := duration, fetched_at := now }
  | .error _ =>
    { status := 500, data := none, error := some "Failed to fetch posts",
      cache_strategy := "tags-revalidate-5m", duration_ms := duration, fetched_at := now }

end WithTagsRoute

/-- C7: when the data-source call raises, each of the three cache-strategy
posts handlers returns status 500 with an error payload carrying its cache
strategy, the measured `duration_ms` and the `fetched_at` timestamp.  The
handlers are total functions, so no exception escapes the handler boundary. -/
theorem postsRoutes_error_path (e : String) (duration : Nat) (now : String) :
    ForceCacheRoute.GET (.error e) duration now =
      { status := 500, data := none, error := some "Failed to fetch posts",
        cache_strategy := "force-cache", duration_ms := duration, fetched_at := now } ∧
    NoCacheRoute.GET (.error e) duration now =
      { status := 500, data := none, error := some "Failed to fetch posts",
        cache_strategy := "no-store", duration_ms := duration, fetched_at := now } ∧
    WithTagsRoute.GET (.error e) duration now =
      { status := 500, data := none, error := some "Failed to fetch posts",
        cache_strategy := "tags-revalidate-5m", duration_ms := duration, fetched_at := now } := by
  exact ⟨rfl, rfl, rfl⟩

/-! ## Revalidation endpoint (C2)

`GET /api/revalidate` reads `tag` and `path` from the query string
(`searchParams.get` yields `null` for an absent parameter, modelled as
`none`, and the — possibly empty — string value otherwise).  The guards in
the source are JS truthiness tests (`!tag && !path`, `if (path)`), under
which both `null` and the empty string count as false.  The framework
invalidation primitives are recorded as emitted `CacheAction`s; in the
source they sit in a `try` block whose `catch` yields a 500, a path the
claims do not exercise and the model treats as non-throwing. -/

/-- JS truthiness of a nullable string: `null` and `""` are falsy. -/
def truthy : Option String → Bool
  | none => false
  | some s => !(s == "")

/-- A call into the invalidation primitives of the framework. -/
inductive CacheAction where
  | revalidateTagAction (tag : String)
  | revalidatePathAction (path : String)
deriving DecidableEq, Repr

/-- The JSON payload (plus HTTP status) of the revalidation endpoint. -/
structure RevalidatePayload where
  status : Nat
  message : Option String
  error : Option String
  revalidated_at : Option String
  tag : Option String
  path : Option String
  method : Option String
deriving DecidableEq, Repr

namespace RevalidateRoute

/-- `GET` of the revalidation route: 400 when both parameters are falsy;
otherwise the path branch wins when `path` is truthy, else the tag branch
runs (`tag!` is then truthy).  `now` models `new Date().toISOString()`. -/
def GET (tag path : Option String) (now : String) :
    RevalidatePayload × List CacheAction :=
  if !truthy tag && !truthy path then
    ({ status := 400,
       message := none,
       error := some "Cache tag or path is required. Use ?tag=your-tag-name or ?path=/your-path",
       revalidated_at := none, tag := none, path := none, method := none }, [])
  else if truthy path then
    let p := path.getD ""
    ({ status := 200,
       message := some ("Path " ++ p ++ " has been revalidated"),
       error := none,
       revalidated_at := some now, tag := none, path := some p,
       method := some "revalidatePath" }, [.revalidatePathAction p])
  else
    let t := tag.getD ""
    ({ status := 200,
       message := some ("Cache tag " ++ t ++ " has been revalidated"),
       error := none,
       revalidated_at := some now, tag := some t, path := none,
       method := some "revalidateTag" }, [.revalidateTagAction t])

end RevalidateRoute

/-- C2, counterexample: the request `?tag=` supplies the `tag` query
parameter (with an empty value) and no `path`, yet the handler returns 400
and invokes no invalidation primitive, because the guard `!tag` treats the
empty string as absent.  The claim as stated requires a 200 echoing the tag
here. -/
theorem revalidate_empty_tag_cex :
    (RevalidateRoute.GET (some "") none "2024-01-01T00:00:00.000Z").1.status = 400 ∧
      (RevalidateRoute.GET (some "") none "2024-01-01T00:00:00.000Z").2 = [] := by
  constructor <;> rfl

/-- C2 (amended): with "supplied" meaning supplied with a non-empty value
(a parameter that is absent or empty is treated as not supplied): if neither
`tag` nor `path` is supplied the status is 400 and no primitive is invoked;
if a path is supplied it takes precedence — the path primitive is invoked
and the response is 200 echoing the path with a server timestamp; otherwise,
with a tag supplied, the tag primitive is invoked and the response is 200
echoing the tag with a server timestamp. -/
theorem revalidate_GET_branches (tag path : Option String) (now : String) :
    (truthy tag = false → truthy path = false →
      (RevalidateRoute.GET tag path now).1.status = 400 ∧
        (RevalidateRoute.GET tag path now).2 = []) ∧
    (∀ p, path = some p → p ≠ "" →
      (RevalidateRoute.GET tag path now).1.status = 200 ∧
        (RevalidateRoute.GET tag path now).1.path = some p ∧
        (RevalidateRoute.GET tag path now).1.revalidated_at = some now ∧
        (RevalidateRoute.GET tag path now).2 = [.revalidatePathAction p]) ∧
    (∀ t, truthy path = false → tag = some t → t ≠ "" →
      (RevalidateRoute.GET tag path now).1.status = 200 ∧
        (RevalidateRoute.GET tag path now).1.tag = some t ∧
        (RevalidateRoute.GET tag path now).1.revalidated_at = some now ∧
        (RevalidateRoute.GET tag path now).2 = [.revalidateTagAction t]) := by
  refine ⟨?_, ?_, ?_⟩
  · intro htag hpath
    unfold RevalidateRoute.GET
    rw [htag, hpath]
    exact ⟨rfl, rfl⟩
  · intro p hp hpne
    have hpath : truthy path = true := by
      subst hp
      unfold truthy
      simpa using hpne
    unfold RevalidateRoute.GET
    rw [hpath]
    subst hp
    by_cases htag : truthy tag = true
    · rw [htag]
      exact ⟨rfl, rfl, rfl, rfl⟩
    · rw [Bool.eq_false_iff.mpr htag]
      exact ⟨rfl, rfl, rfl, rfl⟩
  · intro t hpath ht htne
    have htag : truthy tag = true := by
      subst ht
      unfold truthy
      simpa using htne
    unfold RevalidateRoute.GET
    rw [htag, hpath]
    subst ht
    exact ⟨rfl, rfl, rfl, rfl⟩

/-- C2, witness: the amended theorem evaluated at three concrete requests —
no parameters (400), both `tag` and `path` non-empty (path wins, 200), and a
lone non-empty tag (200). -/
theorem revalidate_GET_branches_witness :
    ((RevalidateRoute.GET none none "t0").1.status = 400 ∧
      (RevalidateRoute.GET none none "t0").2 = []) ∧
    ((RevalidateRoute.GET (some "cdnprobe") (some "/api/cdnprobe") "t0").1.status = 200 ∧
      (RevalidateRoute.GET (some "cdnprobe") (some "/api/cdnprobe") "t0").1.path =
        some "/api/cdnprobe" ∧
      (RevalidateRoute.GET (some "cdnprobe") (some "/api/cdnprobe") "t0").1.revalidated_at =
        some "t0" ∧
      (RevalidateRoute.GET (some "cdnprobe") (some "/api/cdnprobe") "t0").2 =
        [.revalidatePathAction "/api/cdnprobe"]) ∧
    ((RevalidateRoute.GET (some "cdnprobe") none "t0").1.status = 200 ∧
      (RevalidateRoute.GET (some "cdnprobe") none "t0").1.tag = some "cdnprobe" ∧
      (RevalidateRoute.GET (some "cdnprobe") none "t0").1.revalidated_at = some "t0" ∧
      (RevalidateRoute.GET (some "cdnprobe") none "t0").2 =
        [.revalidateTagAction "cdnprobe"]) := by
  refine ⟨(revalidate_GET_branches none none "t0").1 rfl rfl,
    (revalidate_GET_branches (some "cdnprobe") (some "/api/cdnprobe") "t0").2.1
      "/api/cdnprobe" rfl (by decide),
    (revalidate_GET_branches (some "cdnprobe") none "t0").2.2
      "cdnprobe" rfl rfl (by decide)⟩

/-! ## Tag-propagating cache handler (C3, C4, C10)

The wrapped `get` calls the underlying store, then — on a hit whose entry
carries a non-empty tag list — appends the tags to the request-scoped
context when `RequestContext.isActive()`, else pushes them onto the
process-wide `globalThis.__pantheonSurrogateKeyTags` buffer.  A JS entry may
lack a `tags` field (`result.tags` undefined), modelled by
`tags : Option (List String)`.  The underlying `handler.get` is modelled as
a function of the cache key and soft tags. -/

/-- A cache entry as seen by the wrapped `get`: a payload and an optional
tag list. -/
structure CacheEntry (α : Type) where
  value : α
  tags : Option (List String)
deriving DecidableEq, Repr

/-- The mutable tag-capture state: whether an `AsyncLocalStorage` request
context is active, its tag list, and the process-wide fallback buffer. -/
structure TagState where
  ctxActive : Bool
  ctxTags : List String
  globalTags : List String
deriving DecidableEq, Repr

/-- The plain (unwrapped) handler export: `handler.get.bind(handler)` — it
just consults the underlying store. -/
def plainGet {α : Type} (store : String → List String → Option (CacheEntry α))
    (cacheKey : String) (softTags : List String) : Option (CacheEntry α) :=
  store cacheKey softTags

/-- `wrappedGet(cacheKey, softTags)`: performs the underlying get, captures
tags of a tagged hit into the active request context or the global fallback
buffer, and returns the underlying result unchanged. -/
def wrappedGet {α : Type} (store : String → List String → Option (CacheEntry α))
    (cacheKey : String) (softTags : List String) (s : TagState) :
    Option (CacheEntry α) × TagState :=
  let result := store cacheKey softTags
  match result with
  | some entry =>
    match entry.tags with
    | some ts =>
      if ts.length > 0 then
        if s.ctxActive then (result, { s with ctxTags := s.ctxTags ++ ts })
        else (result, { s with globalTags := s.globalTags ++ ts })
      else (result, s)
    | none => (result, s)
  | none => (result, s)

/-- C3: on a hit whose entry carries a non-empty tag list, exactly those tags
are appended to the request-scoped context when one is active and to the
process-wide fallback buffer otherwise (the other buffer being untouched);
on a miss, or a hit without tags or with an empty tag list, neither buffer
is modified. -/
theorem wrappedGet_tag_capture {α : Type}
    (store : String → List String → Option (CacheEntry α))
    (cacheKey : String) (softTags : List String) (s : TagState) :
    (∀ entry ts, store cacheKey softTags = some entry → entry.tags = some ts → ts ≠ [] →
      ((s.ctxActive = true →
          (wrappedGet store cacheKey softTags s).2.ctxTags = s.ctxTags ++ ts ∧
          (wrappedGet store cacheKey softTags s).2.globalTags = s.globalTags) ∧
       (s.ctxActive = false →
          (wrappedGet store cacheKey softTags s).2.globalTags = s.globalTags ++ ts ∧
          (wrappedGet store cacheKey softTags s).2.ctxTags = s.ctxTags))) ∧
    (store cacheKey softTags = none → (wrappedGet store cacheKey softTags s).2 = s) ∧
    (∀ entry, store cacheKey softTags = some entry →
      (entry.tags = none ∨ entry.tags = some []) →
      (wrappedGet store cacheKey softTags s).2 = s) := by
  refine ⟨?_, ?_, ?_⟩
  · intro entry ts hst hts htne
    unfold wrappedGet
    simp only [hst, hts]
    rw [if_pos (by simpa [List.length_pos] using htne)]
    constructor
    · intro hctx
      rw [if_pos hctx]
      exact ⟨rfl, rfl⟩
    · intro hctx
      rw [if_neg (by simp [hctx])]
      exact ⟨rfl, rfl⟩
  · intro hst
    unfold wrappedGet
    simp only [hst]
  · intro entry hst hts
    unfold wrappedGet
    rcases hts with hts | hts <;> simp only [hst, hts]
    rw [if_neg (by simp)]

/-- C3, witness: the capture theorem evaluated on a concrete store holding a
tagged entry, with the request context inactive so the fallback buffer
receives the tags. -/
theorem wrappedGet_tag_capture_witness :
    (wrappedGet (fun k _ => if k = "key1" then some ⟨(7 : Nat), some ["cdnprobe"]⟩ else none)
        "key1" [] ⟨false, [], []⟩).2.globalTags = [] ++ ["cdnprobe"] ∧
    (wrappedGet (fun k _ => if k = "key1" then some ⟨(7 : Nat), some ["cdnprobe"]⟩ else none)
        "key1" [] ⟨false, [], []⟩).2.ctxTags = [] := by
  exact ((wrappedGet_tag_capture
      (fun k _ => if k = "key1" then some ⟨(7 : Nat), some ["cdnprobe"]⟩ else none)
      "key1" [] ⟨false, [], []⟩).1
    ⟨(7 : Nat), some ["cdnprobe"]⟩ ["cdnprobe"] (by decide) rfl (by decide)).2 rfl

/-- C10: the value handed back by the tag-propagating wrapped get equals the
value returned by the plain unwrapped handler get, for every store, key,
soft-tag list and capture state — tag capture is a pure side channel. -/
theorem wrappedGet_refines_plainGet {α : Type}
    (store : String → List String → Option (CacheEntry α))
    (cacheKey : String) (softTags : List String) (s : TagState) :
    (wrappedGet store cacheKey softTags s).1 = plainGet store cacheKey softTags := by
  unfold wrappedGet plainGet
  cases hst : store cacheKey softTags with
  | none => simp [hst]
  | some entry =>
    cases hts : entry.tags with
    | none => simp [hst, hts]
    | some ts =>
      simp only [hst, hts]
      by_cases hlen : ts.length > 0
      · rw [if_pos hlen]
        by_cases hctx : s.ctxActive = true
        · rw [if_pos hctx]
        · rw [if_neg hctx]
      · rw [if_neg hlen]

/-! ### The fallback buffer across requests (C4)

A request is modelled as the list of `(cacheKey, softTags)` lookups its
handlers perform; a process serves a list of requests in order, threading
the shared `TagState` through every lookup.  Nothing in the source ever
clears `globalThis.__pantheonSurrogateKeyTags`. -/

/-- Serve one request: perform its cache lookups in order. -/
def serveRequest {α : Type} (store : String → List String → Option (CacheEntry α))
    (lookups : List (String × List String)) (s : TagState) : TagState :=
  lookups.foldl (fun st kv => (wrappedGet store kv.1 kv.2 st).2) s

/-- Serve a sequence of requests against the shared process state. -/
def runRequests {α : Type} (store : String → List String → Option (CacheEntry α))
    (requests : List (List (String × List String))) (s : TagState) : TagState :=
  requests.foldl (fun st req => serveRequest store req st) s

theorem wrappedGet_globalTags_grows {α : Type}
    (store : String → List String → Option (CacheEntry α))
    (cacheKey : String) (softTags : List String) (s : TagState) :
    ∃ extra, (wrappedGet store cacheKey softTags s).2.globalTags
        = s.globalTags ++ extra := by
  unfold wrappedGet
  cases hst : store cacheKey softTags with
  | none => exact ⟨[], by simp [hst]⟩
  | some entry =>
    cases hts : entry.tags with
    | none => exact ⟨[], by simp [hst, hts]⟩
    | some ts =>
      simp only [hst, hts]
      by_cases hlen : ts.length > 0
      · rw [if_pos hlen]
        by_cases hctx : s.ctxActive = true
        · rw [if_pos hctx]
          exact ⟨[], by simp⟩
        · rw [if_neg hctx]
          exact ⟨ts, rfl⟩
      · rw [if_neg hlen]
        exact ⟨[], by simp⟩

theorem serveRequest_globalTags_grows {α : Type}
    (store : String → List String → Option (CacheEntry α))
    (lookups : List (String × List String)) (s : TagState) :
    ∃ extra, (serveRequest store lookups s).globalTags = s.globalTags ++ extra := by
  induction lookups generalizing s with
  | nil => exact ⟨[], by simp [serveRequest]⟩
  | cons kv rest ih =>
    obtain ⟨e1, h1⟩ := wrappedGet_globalTags_grows store kv.1 kv.2 s
    obtain ⟨e2, h2⟩ := ih (wrappedGet store kv.1 kv.2 s).2
    refine ⟨e1 ++ e2, ?_⟩
    show (serveRequest store rest (wrappedGet store kv.1 kv.2 s).2).globalTags = _
    rw [h2, h1, List.append_assoc]

theorem runRequests_globalTags_grows {α : Type}
    (store : String → List String → Option (CacheEntry α))
    (requests : List (List (String × List String))) (s : TagState) :
    ∃ extra, (runRequests store requests s).globalTags = s.globalTags ++ extra := by
  induction requests generalizing s with
  | nil => exact ⟨[], by simp [runRequests]⟩
  | cons req rest ih =>
    obtain ⟨e1, h1⟩ := serveRequest_globalTags_grows store req s
    obtain ⟨e2, h2⟩ := ih (serveRequest store req s)
    refine ⟨e1 ++ e2, ?_⟩
    show (runRequests store rest (serveRequest store req s)).globalTags = _
    rw [h2, h1, List.append_assoc]

/-- A store holding a single entry tagged `t1`, used for the C4
counterexample. -/
def cexStore : String → List String → Option (CacheEntry Nat) :=
  fun k _ => if k = "k" then some ⟨0, some ["t1"]⟩ else none

/-- C4, counterexample: with no request context active, a first request whose
cache hit pushes `"t1"` onto the process-wide fallback buffer leaves `"t1"`
in the buffer; when a later request reads the buffer (its state is exactly
the state after request one — even after further requests are served) the
tag is still present.  This refutes the claim that the buffer is cleared or
unused after the response it was accumulated for is emitted. -/
theorem globalTags_persist_cex :
    "t1" ∈ (runRequests cexStore [[("k", [])]] ⟨false, [], []⟩).globalTags ∧
      "t1" ∈ (runRequests cexStore [[("k", [])], [("miss", [])]] ⟨false, [], []⟩).globalTags := by
  constructor <;> decide

/-- C4 (amended): the process-wide fallback buffer is never cleared — across
every sequence of requests the buffer only grows (the final buffer is the
initial buffer plus everything pushed), so a tag string present in the
buffer while one request is served is still present whenever any later
response wrapper of a later request reads it. -/
theorem globalTags_never_cleared {α : Type}
    (store : String → List String → Option (CacheEntry α))
    (requests : List (List (String × List String))) (s : TagState) :
    (∃ extra, (runRequests store requests s).globalTags = s.globalTags ++ extra) ∧
      (∀ t, t ∈ s.globalTags → t ∈ (runRequests store requests s).globalTags) := by
  obtain ⟨extra, hx⟩ := runRequests_globalTags_grows store requests s
  refine ⟨⟨extra, hx⟩, fun t ht => ?_⟩
  rw [hx]
  exact List.mem_append_left _ ht

/-- C4, witness: the persistence theorem evaluated on the concrete
single-entry store — the `"t1"` pushed by request one is still in the buffer
after a second request is served. -/
theorem globalTags_never_cleared_witness :
    "t1" ∈ (runRequests cexStore [[("miss", [])]] ⟨false, [], ["t1"]⟩).globalTags := by
  exact (globalTags_never_cleared cexStore [[("miss", [])]] ⟨false, [], ["t1"]⟩).2
    "t1" (by decide)

/-! ## Client verify loop (C9)

`handleVerify` runs `for (attempt = 1; attempt <= MAX_ATTEMPTS; attempt++)`:
each iteration fetches the probe once; if the observed `generated_at`
differs from the stored baseline snapshot it records success and breaks; if
the final attempt is reached it records "may not have propagated" and
breaks; otherwise it sleeps and continues.  The probe observations are
modelled as a function from the attempt number to the `generated_at` value;
the model returns the outcome together with the number of probe fetches
performed.  The model is a total function — the loop always terminates. -/

/-- `MAX_ATTEMPTS` in `handleVerify`. -/
def MAX_ATTEMPTS : Nat := 6

/-- Outcome of the verify loop: purge confirmed at an attempt, or all
attempts exhausted with matching timestamps ("may not have propagated"). -/
inductive VerifyOutcome where
  | confirmed (attempt : Nat) (observed : String)
  | notPropagated (observed : String)
deriving DecidableEq, Repr

/-- One pass of the `for` loop starting at `attempt` with `remaining`
iterations allowed (`remaining = MAX_ATTEMPTS - attempt + 1`); returns the
outcome and the number of probe fetches performed.  The `remaining = 0` case
is unreachable from `handleVerify`. -/
def verifyGo (baseline : Option String) (probe : Nat → String) :
    Nat → Nat → VerifyOutcome × Nat
  | _, 0 => (.notPropagated "", 0)
  | attempt, remaining + 1 =>
    let observed := probe attempt
    let changed : Bool :=
      match baseline with
      | some b => observed != b
      | none => false
    if changed then (.confirmed attempt observed, 1)
    else if remaining = 0 then (.notPropagated observed, 1)
    else
      let r := verifyGo baseline probe (attempt + 1) remaining
      (r.1, r.2 + 1)

/-- `handleVerify`: the bounded polling loop of the CDN probe page, given
the `generated_at` of the baseline snapshot and the stream of observations. -/
def handleVerify (baseline : Option String) (probe : Nat → String) :
    VerifyOutcome × Nat :=
  verifyGo baseline probe 1 MAX_ATTEMPTS

theorem verifyGo_succ_changed (b : String) (probe : Nat → String) (a n : Nat)
    (hch : probe a ≠ b) :
    verifyGo (some b) probe a (n + 1) = (.confirmed a (probe a), 1) := by
  have hb : (probe a != b) = true := bne_iff_ne.mpr hch
  simp only [verifyGo, hb, if_true]

theorem verifyGo_succ_last (b : String) (probe : Nat → String) (a : Nat)
    (hch : probe a = b) :
    verifyGo (some b) probe a 1 = (.notPropagated (probe a), 1) := by
  have hb : (probe a != b) = false := by
    simp [hch]
  simp [verifyGo, hb]

theorem verifyGo_succ_continue (b : String) (probe : Nat → String) (a n : Nat)
    (hch : probe a = b) (hn : n ≠ 0) :
    (verifyGo (some b) probe a (n + 1)).1 = (verifyGo (some b) probe (a + 1) n).1 ∧
      (verifyGo (some b) probe a (n + 1)).2 = (verifyGo (some b) probe (a + 1) n).2 + 1 := by
  have hb : (probe a != b) = false := by
    simp [hch]
  constructor <;> simp only [verifyGo, hb, Bool.false_eq_true, if_false, if_neg hn]

theorem verifyGo_count_bounds (b : String) (probe : Nat → String) :
    ∀ (m a : Nat), 0 < m →
      1 ≤ (verifyGo (some b) probe a m).2 ∧ (verifyGo (some b) probe a m).2 ≤ m := by
  intro m
  induction m with
  | zero => omega
  | succ n ih =>
    intro a _
    by_cases hch : probe a = b
    · by_cases hn : n = 0
      · subst hn
        rw [verifyGo_succ_last b probe a hch]
        omega
      · rw [(verifyGo_succ_continue b probe a n hch hn).2]
        have := ih (a + 1) (by omega)
        omega
    · rw [verifyGo_succ_changed b probe a n hch]
      omega

theorem verifyGo_confirmed_first (b : String) (probe : Nat → String) :
    ∀ (m a k : Nat) (o : String),
      (verifyGo (some b) probe a m).1 = .confirmed k o →
      a ≤ k ∧ k < a + m ∧ o = probe k ∧ o ≠ b ∧
        (∀ j, a ≤ j → j < k → probe j = b) ∧
        (verifyGo (some b) probe a m).2 = k - a + 1 := by
  intro m
  induction m with
  | zero =>
    intro a k o h
    exact absurd h (by rw [verifyGo]; simp)
  | succ n ih =>
    intro a k o h
    by_cases hch : probe a = b
    · by_cases hn : n = 0
      · subst hn
        rw [verifyGo_succ_last b probe a hch] at h
        exact absurd h (by simp)
      · rw [(verifyGo_succ_continue b probe a n hch hn).1] at h
        rw [(verifyGo_succ_continue b probe a n hch hn).2]
        obtain ⟨h1, h2, h3, h4, h5, h6⟩ := ih (a + 1) k o h
        refine ⟨by omega, by omega, h3, h4, ?_, by omega⟩
        intro j hj1 hj2
        rcases Nat.eq_or_lt_of_le hj1 with rfl | hlt
        · exact hch
        · exact h5 j (by omega) hj2
    · rw [verifyGo_succ_changed b probe a n hch] at h ⊢
      obtain ⟨rfl, rfl⟩ : a = k ∧ probe a = o := by
        injection h with h1 h2
        exact ⟨h1, h2⟩
      exact ⟨le_refl _, by omega, rfl, hch, fun j hj1 hj2 => by omega, by omega⟩

theorem verifyGo_exhausted (b : String) (probe : Nat → String) :
    ∀ (m a : Nat), 0 < m → (∀ j, a ≤ j → j < a + m → probe j = b) →
      (verifyGo (some b) probe a m).1 = .notPropagated (probe (a + m - 1)) ∧
        (verifyGo (some b) probe a m).2 = m := by
  intro m
  induction m with
  | zero => omega
  | succ n ih =>
    intro a _ hall
    have ha : probe a = b := hall a (le_refl _) (by omega)
    by_cases hn : n = 0
    · subst hn
      rw [verifyGo_succ_last b probe a ha]
      exact ⟨by simp, rfl⟩
    · have hrec := ih (a + 1) (by omega) (fun j hj1 hj2 => hall j (by omega) (by omega))
      constructor
      · have hidx : a + (n + 1) - 1 = a + 1 + n - 1 := by omega
        rw [(verifyGo_succ_continue b probe a n ha hn).1, hrec.1, hidx]
      · rw [(verifyGo_succ_continue b probe a n ha hn).2, hrec.2]

/-- C9: the verify loop performs between 1 and `MAX_ATTEMPTS` (6) probe
fetches and always terminates (it is a total function).  When it reports
`confirmed` it stopped at the first attempt whose observed `generated_at`
differs from the stored baseline, having fetched exactly that many times;
when every one of the 6 observations equals the baseline it stops after 6
fetches and reports that the purge may not have propagated — an outcome,
not a raised failure. -/
theorem handleVerify_bounded_first_change (b : String) (probe : Nat → String) :
    (1 ≤ (handleVerify (some b) probe).2 ∧ (handleVerify (some b) probe).2 ≤ 6) ∧
    (∀ k o, (handleVerify (some b) probe).1 = .confirmed k o →
      1 ≤ k ∧ k ≤ 6 ∧ o = probe k ∧ o ≠ b ∧
        (∀ j, 1 ≤ j → j < k → probe j = b) ∧
        (handleVerify (some b) probe).2 = k) ∧
    ((∀ j, 1 ≤ j → j ≤ 6 → probe j = b) →
      (handleVerify (some b) probe).1 = .notPropagated (probe 6) ∧
        (handleVerify (some b) probe).2 = 6) := by
  show (1 ≤ (verifyGo (some b) probe 1 6).2 ∧ (verifyGo (some b) probe 1 6).2 ≤ 6) ∧
    (∀ k o, (verifyGo (some b) probe 1 6).1 = .confirmed k o →
      1 ≤ k ∧ k ≤ 6 ∧ o = probe k ∧ o ≠ b ∧
        (∀ j, 1 ≤ j → j < k → probe j = b) ∧
        (verifyGo (some b) probe 1 6).2 = k) ∧
    ((∀ j, 1 ≤ j → j ≤ 6 → probe j = b) →
      (verifyGo (some b) probe 1 6).1 = .notPropagated (probe 6) ∧
        (verifyGo (some b) probe 1 6).2 = 6)
  refine ⟨verifyGo_count_bounds b probe 6 1 (by omega), ?_, ?_⟩
  · intro k o h
    obtain ⟨h1, h2, h3, h4, h5, h6⟩ :=
      verifyGo_confirmed_first b probe 6 1 k o h
    exact ⟨h1, by omega, h3, h4, h5, by omega⟩
  · intro hall
    exact verifyGo_exhausted b probe 6 1 (by omega)
      (fun j hj1 hj2 => hall j hj1 (by omega))

/-- C9, witness: the loop evaluated on a concrete observation stream whose
timestamp first changes at attempt 3 — confirmed at attempt 3 after exactly 3
fetches — and on an all-equal stream — not propagated after 6 fetches. -/
theorem handleVerify_bounded_first_change_witness :
    ((handleVerify (some "old") (fun i => if i = 3 then "new" else "old")).2 ≤ 6) ∧
    (1 ≤ 3 ∧ 3 ≤ 6 ∧ "new" = (fun i => if i = 3 then "new" else "old") 3 ∧
      ("new" : String) ≠ "old" ∧
      (∀ j, 1 ≤ j → j < 3 → (fun i => if i = 3 then "new" else "old") j = "old") ∧
      (handleVerify (some "old") (fun i => if i = 3 then "new" else "old")).2 = 3) ∧
    ((handleVerify (some "old") (fun _ => "old")).1 =
        .notPropagated ((fun _ => "old") 6) ∧
      (handleVerify (some "old") (fun _ => "old")).2 = 6) := by
  refine ⟨(handleVerify_bounded_first_change "old"
      (fun i => if i = 3 then "new" else "old")).1.2,
    (handleVerify_bounded_first_change "old"
      (fun i => if i = 3 then "new" else "old")).2.1 3 "new" (by decide),
    (handleVerify_bounded_first_change "old" (fun _ => "old")).2.2
      (fun j _ _ => rfl)⟩

end CacheApp
